import Mathlib

/-!
Shallow embedding of the agento monitor scheduler
(src/monitor/Monitor.go, package monitor) and the external contracts it
uses. Time instants and durations are modelled as unbounded integers of
nanoseconds, mirroring Go's time.Time / time.Duration arithmetic on the
ranges the scheduler works with. Effects on the outside world (the mongo
collections, the Broadcaster, the time-series sink, the in-flight map)
are modelled as explicit fields of a scheduler state record; fallible
external calls whose outcome the code only logs are oracled as
parameters.
-/

namespace Agento

/-- A BSON object id (12 bytes), modelled as the natural number with the
same big-endian value. Hex strings from the API are decoded into this
representation by objectIdHex. -/
abbrev ObjectId := Nat

/-- Whether a character is an ASCII hexadecimal digit, as accepted by
Go's encoding/hex used inside bson.IsObjectIdHex. -/
def isHexDigit (c : Char) : Bool :=
  c.isDigit || (decide ('a' ≤ c) && decide (c ≤ 'f'))
    || (decide ('A' ≤ c) && decide (c ≤ 'F'))

/-- Numeric value of a hexadecimal digit character. -/
def hexDigitVal (c : Char) : Nat :=
  if c.isDigit then c.toNat - '0'.toNat
  else if decide ('a' ≤ c) && decide (c ≤ 'f') then c.toNat - 'a'.toNat + 10
  else if decide ('A' ≤ c) && decide (c ≤ 'F') then c.toNat - 'A'.toNat + 10
  else 0

/-- bson.IsObjectIdHex: a string is a well-formed object-id hex form iff
it has exactly 24 characters and every character is a hex digit. -/
def isObjectIdHex (s : String) : Bool :=
  s.length == 24 && s.data.all isHexDigit

/-- bson.ObjectIdHex: decode a 24-character hex string into the object id
it denotes (big-endian digit fold). -/
def objectIdHex (s : String) : ObjectId :=
  s.data.foldl (fun a c => 16 * a + hexDigitVal c) 0

/-- Modelled from the library contract of bson.NewObjectId (the bson
package is a third-party dependency, not part of src/): it draws each new
id from a process-global monotonic counter, so successive calls yield
distinct ids. The supply counter is carried in the scheduler state and
the id assigned for counter value n is n itself. -/
def newObjectId (n : Nat) : ObjectId := n

/-- Stand-in for influxdb client.Point (a named, tagged, timestamped
numeric measurement). The scheduler treats points as opaque payloads, so
only a representative shape is needed. -/
structure Point where
  Measurement : String
  Value : Int
deriving DecidableEq, Repr

/-- Modelled from the spec: the Job type (Job.go is not among the
provided source files) identifies an Agent variant plus its
configuration; its only capability, run against a transport, is oracled
as a JobOutcome parameter where executions are modelled. -/
structure Job where
  AgentId : String
deriving DecidableEq, Repr

/-- The Monitor record of src/monitor/Monitor.go. -/
structure Monitor where
  Id : ObjectId
  HostId : ObjectId
  Interval : Int
  Job : Job
  LastCheck : Int
  NextCheck : Int
  LastPoints : List Point
deriving DecidableEq, Repr

/-- The Host record as used by Scheduler.Loop: identifier, display name,
transport key and resolved transport instance (the instance is modelled
by its key). -/
structure Host where
  Id : ObjectId
  Name : String
  TransportId : String
  Transport : String
deriving DecidableEq, Repr

/-- Payload of a Broadcaster event: a Monitor (for add/change) or a raw
identifier string (for delete). -/
inductive BroadcastPayload where
  | mon (m : Monitor)
  | str (s : String)
deriving DecidableEq, Repr

/-- One Broadcaster event: the code emits names "monadd", "monchange"
and "mondelete" (the spec calls them added/changed/deleted). -/
structure Event where
  name : String
  payload : BroadcastPayload
deriving DecidableEq, Repr

/-- Outcome of one mon.Job.Run call: the returned points and the error
(if any). The scheduler stores the points and only logs the error. -/
structure JobOutcome where
  points : List Point
  jobErr : Option String
deriving DecidableEq, Repr

/-- The observable state the scheduler works on: the two mongo
collections, the log of Broadcaster events, the in-flight map (a set of
monitor ids), the executions dispatched so far and not yet run (each a
monitor copy with its capture time), the log of batches handed to the
time-series sink, and the id-supply counter backing newObjectId. -/
structure SchedState where
  monitors : List Monitor
  hosts : List Host
  broadcasts : List Event
  inFlight : List ObjectId
  pending : List (Monitor × Int)
  sink : List (List Point)
  idCounter : Nat
deriving DecidableEq, Repr

/-- The error value ErrorInvalidId of src/monitor/Monitor.go. -/
def ErrorInvalidId : String := "Invalid id"

/-- mgo's not-found error, returned by FindId/UpdateId/RemoveId when no
document has the given id. -/
def mongoErrNotFound : String := "not found"

/-- mgo's duplicate-key error on Insert of an already present id. -/
def duplicateKeyError : String := "duplicate key"

/-- Scheduler.GetMonitor: reject malformed identifiers, then look the
document up by id. -/
def getMonitor (st : SchedState) (id : String) : Except String Monitor :=
  if isObjectIdHex id then
    match st.monitors.find? (fun m => m.Id == objectIdHex id) with
    | some m => Except.ok m
    | none => Except.error mongoErrNotFound
  else
    Except.error ErrorInvalidId

/-- Modelled from the spec: Scheduler.GetHost (its source file is not
among the provided files; the Admin interface and §6 require
find-by-identifier with identifier validation, mirroring GetMonitor). -/
def getHost (st : SchedState) (id : String) : Except String Host :=
  if isObjectIdHex id then
    match st.hosts.find? (fun h => h.Id == objectIdHex id) with
    | some h => Except.ok h
    | none => Except.error mongoErrNotFound
  else
    Except.error ErrorInvalidId

/-- Scheduler.UpdateMonitor: first Broadcast("monchange", mon), then
monitorCollection.UpdateId(mon.Id, mon), which replaces the document
with that id or reports not-found. -/
def updateMonitor (st : SchedState) (mon : Monitor) : SchedState × Option String :=
  if st.monitors.any (fun m => m.Id == mon.Id) then
    ({ st with
        broadcasts := st.broadcasts ++ [Event.mk "monchange" (BroadcastPayload.mon mon)],
        monitors := st.monitors.map (fun m => if m.Id == mon.Id then mon else m) },
     none)
  else
    ({ st with
        broadcasts := st.broadcasts ++ [Event.mk "monchange" (BroadcastPayload.mon mon)] },
     some mongoErrNotFound)

/-- Scheduler.AddMonitor: assign mon.Id = bson.NewObjectId(), then
Broadcast("monadd", mon), then monitorCollection.Insert(mon). The id
supply counter advances by one per call. -/
def addMonitor (st : SchedState) (mon : Monitor) : SchedState × Monitor × Option String :=
  let mon1 := { mon with Id := newObjectId st.idCounter }
  if st.monitors.any (fun m => m.Id == mon1.Id) then
    ({ st with
        idCounter := st.idCounter + 1,
        broadcasts := st.broadcasts ++ [Event.mk "monadd" (BroadcastPayload.mon mon1)] },
     mon1, some duplicateKeyError)
  else
    ({ st with
        idCounter := st.idCounter + 1,
        broadcasts := st.broadcasts ++ [Event.mk "monadd" (BroadcastPayload.mon mon1)],
        monitors := st.monitors ++ [mon1] },
     mon1, none)

/-- Scheduler.DeleteMonitor: reject malformed identifiers before any
effect; otherwise Broadcast("mondelete", id), then
monitorCollection.RemoveId. -/
def deleteMonitor (st : SchedState) (id : String) : SchedState × Option String :=
  if isObjectIdHex id then
    if st.monitors.any (fun m => m.Id == objectIdHex id) then
      ({ st with
          broadcasts := st.broadcasts ++ [Event.mk "mondelete" (BroadcastPayload.str id)],
          monitors := st.monitors.filter (fun m => !(m.Id == objectIdHex id)) },
       none)
    else
      ({ st with
          broadcasts := st.broadcasts ++ [Event.mk "mondelete" (BroadcastPayload.str id)] },
       some mongoErrNotFound)
  else
    (st, some ErrorInvalidId)

/-- The schedule-state mutation done by the dispatched goroutine of
Scheduler.Loop right after mon.Job.Run: cache the returned points, set
LastCheck to the capture time t and NextCheck to t plus the interval. -/
def checkedMonitor (mon : Monitor) (t : Int) (ps : List Point) : Monitor :=
  { mon with LastPoints := ps, LastCheck := t, NextCheck := t + mon.Interval }

/-- The body of the goroutine dispatched by Scheduler.Loop for one due
monitor captured at tick time t. The host lookup error is ignored by the
code and the Job.Run outcome is oracled; the update error and the sink
error are only logged, and the sink error is oracled. The in-flight
entry is removed at the end on every path. -/
def execMonitor (st : SchedState) (mon : Monitor) (t : Int) (outcome : JobOutcome)
    (_hostErr : Option String) (_sinkErr : Option String) : SchedState :=
  let mon1 := checkedMonitor mon t outcome.points
  let st1 := (updateMonitor st mon1).1
  let st2 := { st1 with sink := st1.sink ++ [outcome.points] }
  { st2 with inFlight := st2.inFlight.filter (fun i => !(i == mon.Id)) }

/-- The per-monitor branch of the tick scan of Scheduler.Loop, at tick
time t, with r the value drawn by rand.Int63n(int64(mon.Interval)) in
the cold-start branch. In the source, age = t - LastCheck and
wait = NextCheck - t; an in-flight monitor is skipped, a cold-start
monitor gets a jittered NextCheck persisted via UpdateMonitor, and a due
monitor is marked in flight and its execution dispatched. -/
def scanMonitor (st : SchedState) (t : Int) (r : Int) (mon : Monitor) : SchedState :=
  if mon.Id ∈ st.inFlight then
    st
  else if t - mon.LastCheck > mon.Interval * 2 ∧ mon.NextCheck - t < -mon.Interval then
    (updateMonitor st { mon with NextCheck := t + r }).1
  else if mon.NextCheck - t < 0 then
    { st with inFlight := mon.Id :: st.inFlight, pending := st.pending ++ [(mon, t)] }
  else
    st

/-- One tick's scan over a fetched monitor snapshot; rnd supplies the
random draw used if a monitor hits the cold-start branch. -/
def scanTick (st : SchedState) (t : Int) (rnd : Monitor → Int) (ms : List Monitor) : SchedState :=
  ms.foldl (fun s mon => scanMonitor s t (rnd mon) mon) st

/-- One full tick of Scheduler.Loop: fetch the snapshot from the store
(fetchOk oracles the mongo Find error; on failure the code logs and
continues to the next tick without touching any monitor), then scan. -/
def tick (st : SchedState) (t : Int) (rnd : Monitor → Int) (fetchOk : Bool) : SchedState :=
  if fetchOk then scanTick st t rnd st.monitors else st

/-- The ticker loop of Scheduler.Loop, consuming one (time, rng, fetch
outcome) triple per tick. -/
def runLoop (st : SchedState) : List (Int × (Monitor → Int) × Bool) → SchedState
  | [] => st
  | i :: rest => runLoop (tick st i.1 i.2.1 i.2.2) rest

/-- The startup section of Scheduler.Loop (lines 126-140): if the
reserved local host is absent, look up the "localtransport" constructor
in the plugin registry (modelled from the spec as the list of registered
transport keys, the registry source not being among the provided files)
and insert the local host. When the lookup misses, the code logs and
then still evaluates p() on the nil constructor p inside the Host
literal, a Go nil-function-call panic; the panic is modelled as none. -/
def loopStartup (st : SchedState) (transports : List String) : Option SchedState :=
  match getHost st "000000000000000000000000" with
  | Except.ok _ => some st
  | Except.error _ =>
    if transports.contains "localtransport" then
      some { st with hosts := st.hosts ++
        [{ Id := objectIdHex "000000000000000000000000", Name := "localhost",
           TransportId := "localtransport", Transport := "localtransport" }] }
    else
      none

/-- Scheduler.Loop end to end: the startup section, then the ticker
loop; none when startup panicked, in which case no tick ever runs. -/
def Loop (st : SchedState) (transports : List String)
    (inputs : List (Int × (Monitor → Int) × Bool)) : Option SchedState :=
  match loopStartup st transports with
  | some st1 => some (runLoop st1 inputs)
  | none => none

/-- Sequence of AddMonitor calls, returning the final state and the list
of monitors as returned (with their assigned ids). -/
def addAll (st : SchedState) (ms : List Monitor) : SchedState × List Monitor :=
  match ms with
  | [] => (st, [])
  | m :: rest =>
    let r := addMonitor st m
    let r2 := addAll r.1 rest
    (r2.1, r.2.1 :: r2.2)

/-- Well-formedness of the id supply: every stored monitor's id was
allocated below the current counter. Holds of any state reachable from
an empty store and is preserved by all operations. -/
abbrev IdsBelowCounter (st : SchedState) : Prop :=
  ∀ m ∈ st.monitors, m.Id < st.idCounter

/-! Helper lemmas about which state fields each operation can touch. -/

theorem updateMonitor_fst_inFlight (st : SchedState) (mon : Monitor) :
    (updateMonitor st mon).1.inFlight = st.inFlight := by
  unfold updateMonitor; split <;> rfl

theorem updateMonitor_fst_pending (st : SchedState) (mon : Monitor) :
    (updateMonitor st mon).1.pending = st.pending := by
  unfold updateMonitor; split <;> rfl

theorem updateMonitor_fst_sink (st : SchedState) (mon : Monitor) :
    (updateMonitor st mon).1.sink = st.sink := by
  unfold updateMonitor; split <;> rfl

theorem updateMonitor_fst_broadcasts (st : SchedState) (mon : Monitor) :
    (updateMonitor st mon).1.broadcasts
      = st.broadcasts ++ [Event.mk "monchange" (BroadcastPayload.mon mon)] := by
  unfold updateMonitor; split <;> rfl

theorem updateMonitor_fst_monitors_of_found (st : SchedState) (mon : Monitor)
    (h : st.monitors.any (fun m => m.Id == mon.Id) = true) :
    (updateMonitor st mon).1.monitors
      = st.monitors.map (fun m => if m.Id == mon.Id then mon else m) := by
  unfold updateMonitor
  rw [if_pos h]

theorem updateMonitor_any_of_ok (st : SchedState) (mon : Monitor)
    (h : (updateMonitor st mon).2 = none) :
    st.monitors.any (fun m => m.Id == mon.Id) = true := by
  by_cases hc : st.monitors.any (fun m => m.Id == mon.Id) = true
  · exact hc
  · exfalso
    unfold updateMonitor at h
    rw [if_neg hc] at h
    exact Option.noConfusion h

/-- Identifier of the advanced record: the goroutine only rewrites
LastPoints, LastCheck and NextCheck, never the id. -/
theorem checkedMonitor_Id (mon : Monitor) (t : Int) (ps : List Point) :
    (checkedMonitor mon t ps).Id = mon.Id := rfl

/-- Replacing the (present) record with id mon.Id makes the lookup by
that id return exactly the replacement. -/
theorem find_after_update (l : List Monitor) (mon : Monitor)
    (h : l.any (fun m => m.Id == mon.Id) = true) :
    (l.map (fun m => if m.Id == mon.Id then mon else m)).find?
        (fun m => m.Id == mon.Id) = some mon := by
  induction l with
  | nil => simp at h
  | cons a l ih =>
    by_cases ha : a.Id = mon.Id
    · simp [List.find?_cons, ha]
    · have h' : l.any (fun m => m.Id == mon.Id) = true := by
        simp only [List.any_cons, Bool.or_eq_true] at h
        rcases h with h | h
        · exact absurd (by simpa using h) ha
        · exact h
      have hhead : (if (a.Id == mon.Id) = true then mon else a) = a := by
        simp [ha]
      rw [List.map_cons, hhead, List.find?_cons_of_neg _ (by simp [ha])]
      exact ih h'

/-- C10: UpdateMonitor emits the "monchange" broadcast before attempting
the storage write, unconditionally: on every input the broadcast log
gains exactly that event, so no input makes update return an error
without having broadcast. -/
theorem update_broadcasts_before_write (st : SchedState) (mon : Monitor) :
    (updateMonitor st mon).1.broadcasts
      = st.broadcasts ++ [Event.mk "monchange" (BroadcastPayload.mon mon)] := by
  unfold updateMonitor; split <;> rfl

/-- C5: DeleteMonitor with a string that is not a well-formed
24-character hexadecimal identifier returns ErrorInvalidId and leaves
the state untouched: no storage mutation and no broadcast. -/
theorem delete_invalid_id_no_effect (st : SchedState) (id : String)
    (h : isObjectIdHex id = false) :
    deleteMonitor st id = (st, some ErrorInvalidId) := by
  unfold deleteMonitor
  rw [if_neg (by simp [h])]

theorem delete_invalid_id_no_effect_witness :
    isObjectIdHex "not-a-hex-id" = false
    ∧ deleteMonitor
        { monitors := [], hosts := [], broadcasts := [], inFlight := [],
          pending := [], sink := [], idCounter := 0 } "not-a-hex-id"
      = ({ monitors := [], hosts := [], broadcasts := [], inFlight := [],
           pending := [], sink := [], idCounter := 0 }, some ErrorInvalidId) :=
  ⟨by decide,
   delete_invalid_id_no_effect
     { monitors := [], hosts := [], broadcasts := [], inFlight := [],
       pending := [], sink := [], idCounter := 0 } "not-a-hex-id" (by decide)⟩

/-- C4: every dispatched execution ends by removing its monitor's id
from the in-flight set, whatever the Job outcome, the host lookup error,
and the sink error were, and whatever the store held (so also when the
persistence update failed): afterwards the id is gone and no other
in-flight entry is touched. -/
theorem execution_clears_inflight (st : SchedState) (mon : Monitor) (t : Int)
    (outcome : JobOutcome) (hostErr sinkErr : Option String) :
    (execMonitor st mon t outcome hostErr sinkErr).inFlight
        = st.inFlight.filter (fun i => !(i == mon.Id))
    ∧ mon.Id ∉ (execMonitor st mon t outcome hostErr sinkErr).inFlight := by
  have h1 : (execMonitor st mon t outcome hostErr sinkErr).inFlight
      = st.inFlight.filter (fun i => !(i == mon.Id)) := by
    simp [execMonitor, updateMonitor_fst_inFlight]
  refine ⟨h1, ?_⟩
  rw [h1]
  simp [List.mem_filter]

/-- C8: a tick whose store fetch fails processes no monitor at all (no
jitter assignment, no dispatch, no persistence, no broadcast) and the
loop goes on to the next tick instead of terminating. -/
theorem fetch_failure_skips_tick (st : SchedState) (t : Int) (rnd : Monitor → Int)
    (rest : List (Int × (Monitor → Int) × Bool)) :
    tick st t rnd false = st
    ∧ runLoop st ((t, rnd, false) :: rest) = runLoop st rest := by
  constructor <;> rfl

/-- C9: evaluation of the startup path when the reserved local host is
absent and the plugin registry has no "localtransport" entry: the
lookup misses, p is the nil constructor, and the unconditional p() call
in the Host literal panics, so Scheduler.Loop crashes and the polling
loop never starts — even when tick work was waiting, no tick runs. -/
theorem startup_crash_on_missing_localtransport :
    loopStartup
        { monitors := [], hosts := [], broadcasts := [], inFlight := [],
          pending := [], sink := [], idCounter := 0 } [] = none
    ∧ Loop
        { monitors := [], hosts := [], broadcasts := [], inFlight := [],
          pending := [], sink := [], idCounter := 0 } []
        [(0, fun _ => 0, true)] = none := by
  constructor <;> rfl

/-- C2: for a monitor not in flight whose age exceeds twice its interval
and which is overdue by more than one interval, the tick takes the
cold-start branch: no execution is dispatched; instead NextCheck is set
to now plus the drawn offset r (with 0 ≤ r < interval, the contract of
rand.Int63n, which requires interval > 0) and the monitor is persisted
via the update operation. -/
theorem coldstart_jitter_no_dispatch (st : SchedState) (t r : Int) (mon : Monitor)
    (hnf : mon.Id ∉ st.inFlight)
    (hage : t - mon.LastCheck > mon.Interval * 2)
    (hwait : mon.NextCheck - t < -mon.Interval)
    (hr0 : 0 ≤ r) (hr1 : r < mon.Interval) :
    scanMonitor st t r mon = (updateMonitor st { mon with NextCheck := t + r }).1
    ∧ (scanMonitor st t r mon).pending = st.pending
    ∧ (scanMonitor st t r mon).inFlight = st.inFlight
    ∧ 0 < mon.Interval := by
  have heq : scanMonitor st t r mon
      = (updateMonitor st { mon with NextCheck := t + r }).1 := by
    unfold scanMonitor
    rw [if_neg hnf, if_pos ⟨hage, hwait⟩]
  refine ⟨heq, ?_, ?_, lt_of_le_of_lt hr0 hr1⟩
  · rw [heq, updateMonitor_fst_pending]
  · rw [heq, updateMonitor_fst_inFlight]

def monW2 : Monitor :=
  { Id := 9, HostId := 0, Interval := 100, Job := { AgentId := "c" },
    LastCheck := 0, NextCheck := 0, LastPoints := [] }

def stW2 : SchedState :=
  { monitors := [monW2], hosts := [], broadcasts := [], inFlight := [],
    pending := [], sink := [], idCounter := 10 }

theorem coldstart_jitter_no_dispatch_witness :
    (monW2.Id ∉ stW2.inFlight
      ∧ (1000 : Int) - monW2.LastCheck > monW2.Interval * 2
      ∧ monW2.NextCheck - 1000 < -monW2.Interval
      ∧ (0 : Int) ≤ 5 ∧ (5 : Int) < monW2.Interval)
    ∧ (scanMonitor stW2 1000 5 monW2
          = (updateMonitor stW2 { monW2 with NextCheck := 1000 + 5 }).1
      ∧ (scanMonitor stW2 1000 5 monW2).pending = stW2.pending
      ∧ (scanMonitor stW2 1000 5 monW2).inFlight = stW2.inFlight
      ∧ 0 < monW2.Interval) :=
  ⟨⟨by decide, by decide, by decide, by decide, by decide⟩,
   coldstart_jitter_no_dispatch stW2 1000 5 monW2
     (by decide) (by decide) (by decide) (by decide) (by decide)⟩

/-- C3: whatever the Job outcome (points or an error, which is only
logged and not retried), the dispatched execution captured at tick time
t leaves the stored record with LastCheck = t exactly, NextCheck =
t + interval exactly, and the returned points cached in LastPoints, and
it persists that record via the update operation (which broadcasts it);
the hypothesis says the record is present so the storage update
succeeds. -/
theorem execution_advances_schedule (st : SchedState) (mon : Monitor) (t : Int)
    (outcome : JobOutcome) (hostErr sinkErr : Option String)
    (hmem : st.monitors.any (fun m => m.Id == mon.Id) = true) :
    (execMonitor st mon t outcome hostErr sinkErr).monitors.find?
        (fun m => m.Id == mon.Id) = some (checkedMonitor mon t outcome.points)
    ∧ (execMonitor st mon t outcome hostErr sinkErr).broadcasts
        = st.broadcasts
          ++ [Event.mk "monchange"
                (BroadcastPayload.mon (checkedMonitor mon t outcome.points))]
    ∧ (checkedMonitor mon t outcome.points).LastCheck = t
    ∧ (checkedMonitor mon t outcome.points).NextCheck = t + mon.Interval
    ∧ (checkedMonitor mon t outcome.points).LastPoints = outcome.points := by
  have hId : (checkedMonitor mon t outcome.points).Id = mon.Id := rfl
  have hmem1 : st.monitors.any
      (fun m => m.Id == (checkedMonitor mon t outcome.points).Id) = true := by
    simpa [hId] using hmem
  refine ⟨?_, ?_, rfl, rfl, rfl⟩
  · have hm : (execMonitor st mon t outcome hostErr sinkErr).monitors
        = (updateMonitor st (checkedMonitor mon t outcome.points)).1.monitors := by
      simp [execMonitor]
    rw [hm, updateMonitor_fst_monitors_of_found _ _ hmem1]
    have hfind := find_after_update st.monitors (checkedMonitor mon t outcome.points) hmem1
    simp only [hId] at hfind ⊢
    exact hfind
  · simp [execMonitor, updateMonitor_fst_broadcasts]

def monW3 : Monitor :=
  { Id := 3, HostId := 0, Interval := 60, Job := { AgentId := "c" },
    LastCheck := 0, NextCheck := 10, LastPoints := [] }

def stW3 : SchedState :=
  { monitors := [monW3], hosts := [], broadcasts := [], inFlight := [3],
    pending := [], sink := [], idCounter := 4 }

def outW3 : JobOutcome :=
  { points := [{ Measurement := "cpu.user", Value := 42 }],
    jobErr := some "agent failed" }

theorem execution_advances_schedule_witness :
    (stW3.monitors.any (fun m => m.Id == monW3.Id) = true)
    ∧ ((execMonitor stW3 monW3 50 outW3 none (some "influx down")).monitors.find?
          (fun m => m.Id == monW3.Id) = some (checkedMonitor monW3 50 outW3.points)
      ∧ (execMonitor stW3 monW3 50 outW3 none (some "influx down")).broadcasts
          = stW3.broadcasts
            ++ [Event.mk "monchange"
                  (BroadcastPayload.mon (checkedMonitor monW3 50 outW3.points))]
      ∧ (checkedMonitor monW3 50 outW3.points).LastCheck = 50
      ∧ (checkedMonitor monW3 50 outW3.points).NextCheck = 50 + monW3.Interval
      ∧ (checkedMonitor monW3 50 outW3.points).LastPoints = outW3.points) :=
  ⟨by decide,
   execution_advances_schedule stW3 monW3 50 outW3 none (some "influx down") (by decide)⟩

/-- C6: after a successful update of monitor M, getting M's identifier
back out of the store returns a record equal to M field for field; the
hypotheses say the identifier is well formed, M carries it, and the
storage update succeeded (the get succeeding is part of the
conclusion). -/
theorem update_get_roundtrip (st : SchedState) (mon : Monitor) (s : String)
    (hs : isObjectIdHex s = true) (hid : mon.Id = objectIdHex s)
    (hok : (updateMonitor st mon).2 = none) :
    getMonitor (updateMonitor st mon).1 s = Except.ok mon := by
  have hany := updateMonitor_any_of_ok st mon hok
  unfold getMonitor
  rw [if_pos hs, updateMonitor_fst_monitors_of_found st mon hany]
  have hfind : (st.monitors.map (fun m => if m.Id == mon.Id then mon else m)).find?
      (fun m => m.Id == objectIdHex s) = some mon := by
    have h0 := find_after_update st.monitors mon hany
    simpa [← hid] using h0
  rw [hfind]

def sW6 : String := "00000000000000000000002a"

def monW6 : Monitor :=
  { Id := objectIdHex sW6, HostId := 1, Interval := 30, Job := { AgentId := "e" },
    LastCheck := 5, NextCheck := 35, LastPoints := [{ Measurement := "misc.AvailableEntropy", Value := 256 }] }

def stW6 : SchedState :=
  { monitors := [{ monW6 with LastCheck := 0, NextCheck := 0, LastPoints := [] }],
    hosts := [], broadcasts := [], inFlight := [], pending := [], sink := [],
    idCounter := 100 }

theorem update_get_roundtrip_witness :
    (isObjectIdHex sW6 = true ∧ (updateMonitor stW6 monW6).2 = none)
    ∧ getMonitor (updateMonitor stW6 monW6).1 sW6 = Except.ok monW6 :=
  ⟨⟨by decide, by decide⟩,
   update_get_roundtrip stW6 monW6 sW6 (by decide) rfl (by decide)⟩

/-- One scan step keeps an already in-flight id in flight, adds no
pending execution for it, adds no second in-flight entry for it, and
writes nothing to the sink. -/
theorem scanMonitor_inflight_invariant (st : SchedState) (t r : Int) (mon : Monitor)
    (x : ObjectId) (hx : x ∈ st.inFlight) :
    x ∈ (scanMonitor st t r mon).inFlight
    ∧ (scanMonitor st t r mon).pending.filter (fun p => p.1.Id == x)
        = st.pending.filter (fun p => p.1.Id == x)
    ∧ (scanMonitor st t r mon).inFlight.count x = st.inFlight.count x
    ∧ (scanMonitor st t r mon).sink = st.sink := by
  by_cases h1 : mon.Id ∈ st.inFlight
  · have hs : scanMonitor st t r mon = st := by
      unfold scanMonitor; rw [if_pos h1]
    rw [hs]; exact ⟨hx, rfl, rfl, rfl⟩
  · by_cases h2 : t - mon.LastCheck > mon.Interval * 2 ∧ mon.NextCheck - t < -mon.Interval
    · have hs : scanMonitor st t r mon
          = (updateMonitor st { mon with NextCheck := t + r }).1 := by
        unfold scanMonitor; rw [if_neg h1, if_pos h2]
      rw [hs, updateMonitor_fst_inFlight, updateMonitor_fst_pending,
        updateMonitor_fst_sink]
      exact ⟨hx, rfl, rfl, rfl⟩
    · by_cases h3 : mon.NextCheck - t < 0
      · have hs : scanMonitor st t r mon
            = { st with inFlight := mon.Id :: st.inFlight,
                        pending := st.pending ++ [(mon, t)] } := by
          unfold scanMonitor; rw [if_neg h1, if_neg h2, if_pos h3]
        have hne : x ≠ mon.Id := fun he => h1 (he ▸ hx)
        rw [hs]
        refine ⟨List.mem_cons_of_mem _ hx, ?_, ?_, rfl⟩
        · show (st.pending ++ [(mon, t)]).filter (fun p => p.1.Id == x)
              = st.pending.filter (fun p => p.1.Id == x)
          simp [List.filter_append, Ne.symm hne]
        · show (mon.Id :: st.inFlight).count x = st.inFlight.count x
          simp [List.count_cons, hne]
      · have hs : scanMonitor st t r mon = st := by
          unfold scanMonitor; rw [if_neg h1, if_neg h2, if_neg h3]
        rw [hs]; exact ⟨hx, rfl, rfl, rfl⟩

/-- C1: during a whole tick scan, a monitor id already in the in-flight
set is never dispatched again: no pending execution carrying that id is
added, the number of in-flight entries for that id does not change (so
no second entry is made), and the scan writes nothing to the time-series
sink — no duplicate write can originate from it. -/
theorem scan_skips_inflight (st : SchedState) (t : Int) (rnd : Monitor → Int)
    (ms : List Monitor) (x : ObjectId) (hx : x ∈ st.inFlight) :
    (scanTick st t rnd ms).pending.filter (fun p => p.1.Id == x)
        = st.pending.filter (fun p => p.1.Id == x)
    ∧ (scanTick st t rnd ms).inFlight.count x = st.inFlight.count x
    ∧ (scanTick st t rnd ms).sink = st.sink := by
  induction ms generalizing st with
  | nil => exact ⟨rfl, rfl, rfl⟩
  | cons m rest ih =>
    have hstep := scanMonitor_inflight_invariant st t (rnd m) m x hx
    have hrec := ih (scanMonitor st t (rnd m) m) hstep.1
    have hfold : scanTick st t rnd (m :: rest)
        = scanTick (scanMonitor st t (rnd m) m) t rnd rest := rfl
    rw [hfold]
    exact ⟨hrec.1.trans hstep.2.1, hrec.2.1.trans hstep.2.2.1,
      hrec.2.2.trans hstep.2.2.2⟩

def monW1 : Monitor :=
  { Id := 7, HostId := 0, Interval := 50, Job := { AgentId := "c" },
    LastCheck := 0, NextCheck := 1, LastPoints := [] }

def stW1 : SchedState :=
  { monitors := [monW1], hosts := [], broadcasts := [], inFlight := [7],
    pending := [], sink := [], idCounter := 8 }

theorem scan_skips_inflight_witness :
    ((7 : ObjectId) ∈ stW1.inFlight)
    ∧ ((scanTick stW1 5 (fun _ => 0) [monW1]).pending.filter (fun p => p.1.Id == 7)
          = stW1.pending.filter (fun p => p.1.Id == 7)
      ∧ (scanTick stW1 5 (fun _ => 0) [monW1]).inFlight.count 7
          = stW1.inFlight.count 7
      ∧ (scanTick stW1 5 (fun _ => 0) [monW1]).sink = stW1.sink) :=
  ⟨by decide, scan_skips_inflight stW1 5 (fun _ => 0) [monW1] 7 (by decide)⟩

/-! Lemmas for the AddMonitor id supply. -/

theorem addMonitor_snd_fst (st : SchedState) (m : Monitor) :
    (addMonitor st m).2.1 = { m with Id := newObjectId st.idCounter } := by
  simp only [addMonitor]
  split <;> rfl

theorem addMonitor_fst_idCounter (st : SchedState) (m : Monitor) :
    (addMonitor st m).1.idCounter = st.idCounter + 1 := by
  simp only [addMonitor]
  split <;> rfl

theorem addMonitor_fst_broadcasts (st : SchedState) (m : Monitor) :
    (addMonitor st m).1.broadcasts
      = st.broadcasts
        ++ [Event.mk "monadd" (BroadcastPayload.mon ((addMonitor st m).2.1))] := by
  simp only [addMonitor]
  split <;> rfl

theorem addAll_map_id (st : SchedState) (ms : List Monitor) :
    (addAll st ms).2.map Monitor.Id = List.range' st.idCounter ms.length := by
  induction ms generalizing st with
  | nil => rfl
  | cons m rest ih =>
    have h1 : (addAll st (m :: rest)).2
        = (addMonitor st m).2.1 :: (addAll (addMonitor st m).1 rest).2 := rfl
    rw [h1, List.map_cons]
    have h2 := ih (addMonitor st m).1
    rw [addMonitor_fst_idCounter] at h2
    rw [h2, addMonitor_snd_fst, List.length_cons, List.range'_succ]
    rfl

theorem addAll_broadcasts (st : SchedState) (ms : List Monitor) :
    (addAll st ms).1.broadcasts
      = st.broadcasts
        ++ (addAll st ms).2.map (fun m => Event.mk "monadd" (BroadcastPayload.mon m)) := by
  induction ms generalizing st with
  | nil => simp [addAll]
  | cons m rest ih =>
    have h1 : (addAll st (m :: rest)).1 = (addAll (addMonitor st m).1 rest).1 := rfl
    have h2 : (addAll st (m :: rest)).2
        = (addMonitor st m).2.1 :: (addAll (addMonitor st m).1 rest).2 := rfl
    rw [h1, h2, ih (addMonitor st m).1, addMonitor_fst_broadcasts, List.map_cons]
    simp [List.append_assoc]

theorem addMonitor_not_dup (st : SchedState) (h : IdsBelowCounter st) :
    st.monitors.any (fun x => x.Id == newObjectId st.idCounter) = false := by
  rw [List.any_eq_false]
  intro x hx
  simp only [beq_iff_eq, newObjectId]
  exact Nat.ne_of_lt (h x hx)

theorem addMonitor_eq_of_fresh (st : SchedState) (m : Monitor) (h : IdsBelowCounter st) :
    addMonitor st m
      = ({ st with
            idCounter := st.idCounter + 1,
            broadcasts := st.broadcasts
              ++ [Event.mk "monadd"
                    (BroadcastPayload.mon { m with Id := newObjectId st.idCounter })],
            monitors := st.monitors ++ [{ m with Id := newObjectId st.idCounter }] },
         { m with Id := newObjectId st.idCounter }, none) := by
  have hd := addMonitor_not_dup st h
  simp only [addMonitor]
  rw [if_neg (by simp [hd])]

theorem addMonitor_fresh_preserved (st : SchedState) (m : Monitor)
    (h : IdsBelowCounter st) : IdsBelowCounter (addMonitor st m).1 := by
  rw [addMonitor_eq_of_fresh st m h]
  intro x hx
  simp only [List.mem_append, List.mem_singleton] at hx
  rcases hx with hx | hx
  · exact Nat.lt_succ_of_lt (h x hx)
  · rw [hx]
    exact Nat.lt_succ_self _

theorem addMonitor_mem_mono (st : SchedState) (m a : Monitor)
    (ha : a ∈ st.monitors) : a ∈ (addMonitor st m).1.monitors := by
  simp only [addMonitor]
  split
  · exact ha
  · exact List.mem_append_left _ ha

theorem addAll_mem_mono (st : SchedState) (ms : List Monitor) (a : Monitor)
    (ha : a ∈ st.monitors) : a ∈ (addAll st ms).1.monitors := by
  induction ms generalizing st with
  | nil => exact ha
  | cons m rest ih => exact ih (addMonitor st m).1 (addMonitor_mem_mono st m a ha)

theorem addAll_assigned_mem (st : SchedState) (ms : List Monitor)
    (h : IdsBelowCounter st) :
    ∀ a ∈ (addAll st ms).2, a ∈ (addAll st ms).1.monitors := by
  induction ms generalizing st with
  | nil => intro a ha; exact absurd ha (List.not_mem_nil a)
  | cons m rest ih =>
    intro a ha
    have hcons : (addAll st (m :: rest)).2
        = (addMonitor st m).2.1 :: (addAll (addMonitor st m).1 rest).2 := rfl
    have hfst : (addAll st (m :: rest)).1 = (addAll (addMonitor st m).1 rest).1 := rfl
    rw [hcons] at ha
    rw [hfst]
    rcases List.mem_cons.mp ha with ha | ha
    · have h1 : (addMonitor st m).2.1 ∈ (addMonitor st m).1.monitors := by
        rw [addMonitor_eq_of_fresh st m h]
        exact List.mem_append_right _ (List.mem_singleton.mpr rfl)
      exact ha ▸ addAll_mem_mono (addMonitor st m).1 rest _ h1
    · exact ih (addMonitor st m).1 (addMonitor_fresh_preserved st m h) a ha

/-- C7: a sequence of add operations assigns pairwise distinct
identifiers (freshness of the id supply), emits exactly one "monadd"
broadcast per add carrying the monitor with its assigned id, and
persists each added record, which is still present — identifier
untouched — after all later adds; the hypothesis is the id-supply
well-formedness holding of every state reachable from an empty store. -/
theorem add_assigns_fresh_ids (st : SchedState) (ms : List Monitor)
    (h : IdsBelowCounter st) :
    ((addAll st ms).2.map Monitor.Id).Nodup
    ∧ (addAll st ms).1.broadcasts
        = st.broadcasts
          ++ (addAll st ms).2.map (fun m => Event.mk "monadd" (BroadcastPayload.mon m))
    ∧ ∀ a ∈ (addAll st ms).2, a ∈ (addAll st ms).1.monitors := by
  refine ⟨?_, addAll_broadcasts st ms, addAll_assigned_mem st ms h⟩
  rw [addAll_map_id]
  exact List.nodup_range' _ _

def emptyStateW : SchedState :=
  { monitors := [], hosts := [], broadcasts := [], inFlight := [],
    pending := [], sink := [], idCounter := 0 }

def monW7 : Monitor :=
  { Id := 999, HostId := 2, Interval := 10, Job := { AgentId := "m" },
    LastCheck := 0, NextCheck := 0, LastPoints := [] }

theorem add_assigns_fresh_ids_witness :
    IdsBelowCounter emptyStateW
    ∧ (((addAll emptyStateW [monW7, monW7]).2.map Monitor.Id).Nodup
      ∧ (addAll emptyStateW [monW7, monW7]).1.broadcasts
          = emptyStateW.broadcasts
            ++ (addAll emptyStateW [monW7, monW7]).2.map
                (fun m => Event.mk "monadd" (BroadcastPayload.mon m))
      ∧ ∀ a ∈ (addAll emptyStateW [monW7, monW7]).2,
          a ∈ (addAll emptyStateW [monW7, monW7]).1.monitors) :=
  ⟨by decide, add_assigns_fresh_ids emptyStateW [monW7, monW7] (by decide)⟩

end Agento
